import Mathlib

/-!
Verification development for the PlinkItForMe backend
(src/backend/scraper.py and src/backend/app.py).

Strings are modelled as `List Char`; Python `None`-able values as `Option`;
the fixed-size page fan-out, the Redis cache and the JSON serialization are
modelled explicitly.  Every definition is a direct translation of the
corresponding Python code; external collaborators (the HTTP transport,
the HTML-to-element step of BeautifulSoup, the index choice of random.sample,
the TMDB client) enter as explicit parameters or as the input data of the
translated function.
-/

/-- Turns a Lean string literal into the `List Char` representation used
throughout this development. -/
def cs (s : String) : List Char := s.data

/-- One movie record, as built in `fetch_page` (scraper.py lines 99-104):
a dict with keys title, year, url, poster. -/
structure Movie where
  title : List Char
  year : Option Nat
  url : Option (List Char)
  poster : Option (List Char)
deriving DecidableEq, Repr

/-- Numeric value of a decimal digit character (models Python `int` applied
to a captured digit group). -/
def digitVal (c : Char) : Nat := c.toNat - 48

/-- The character class Python's `\s` matches on ASCII text
(space, tab, newline, carriage return, vertical tab, form feed). -/
def pySpace (c : Char) : Bool :=
  c = ' ' || c = '\t' || c = '\n' || c = '\r' || c = '\x0b' || c = '\x0c'

/-- Removes the maximal run of `\s` characters at the right end of a string;
this is what the `re.sub` call with the end-anchored year pattern does to the
text left of the parenthesized year. -/
def rstripWs (s : List Char) : List Char := (s.reverse.dropWhile pySpace).reverse

/-- Models the `re.search` call with the end-anchored year pattern together
with `int` applied to `year_match.group(1)` (scraper.py lines 91-92): the pattern is six
characters anchored at the end of the string, an opening parenthesis, four
decimal digits, and a closing parenthesis; on a match the captured year is
returned. -/
def reSearchYear (s : List Char) : Option Nat :=
  match s.reverse with
  | c0 :: c1 :: c2 :: c3 :: c4 :: c5 :: _ =>
    if c0 = ')' ∧ c5 = '(' ∧ c1.isDigit ∧ c2.isDigit ∧ c3.isDigit ∧ c4.isDigit then
      some (1000 * digitVal c4 + 100 * digitVal c3 + 10 * digitVal c2 + digitVal c1)
    else none
  | _ => none

/-- Models the `re.sub` call that deletes the matched year suffix
(scraper.py line 95).  The
pattern is end-anchored, so at most one occurrence is removed: the trailing
`(dddd)` together with the maximal whitespace run immediately before it
(the leftmost match of the greedy `\s*` starts at the beginning of that
run).  When the string does not end in `(dddd)` it is returned unchanged. -/
def reSubYear (s : List Char) : List Char :=
  match s.reverse with
  | c0 :: c1 :: c2 :: c3 :: c4 :: c5 :: rest =>
    if c0 = ')' ∧ c5 = '(' ∧ c1.isDigit ∧ c2.isDigit ∧ c3.isDigit ∧ c4.isDigit then
      (rest.dropWhile pySpace).reverse
    else s
  | _ => s

/-- The title/year extraction of `fetch_page` (scraper.py lines 91-95):
`year = int(m.group(1)) if m else None`,
`title = re.sub(...) if m else full_name`. -/
def extractTitleYear (s : List Char) : List Char × Option Nat :=
  match reSearchYear s with
  | some y => (reSubYear s, some y)
  | none => (s, none)

/-- The `div.react-component` node inside one watchlist grid item, with its
two data attributes as read by `poster_div.get(...)` (scraper.py
lines 85-87): `data-item-name` and `data-item-slug`, each possibly absent. -/
structure ReactDiv where
  itemName : Option (List Char)
  itemSlug : Option (List Char)
deriving DecidableEq, Repr

/-- One `li.griditem` element of a watchlist page; `reactDiv` is the result
of the `movie.find` call for the react-component div (scraper.py line 84),
absent when the item has no such div. -/
structure GridItem where
  reactDiv : Option ReactDiv
deriving DecidableEq, Repr

/-- The movie dict built from one grid item whose react div carries the name
string `nm` (scraper.py lines 85-104): the item url is
`https://letterboxd.com/film/<slug>/` when the slug is present and non-empty
(Python truthiness of `slug`), title/year come from the regex extraction,
and the poster is always `None` at this stage. -/
def movieOfItem (d : ReactDiv) (nm : List Char) : Movie :=
  { title := (extractTitleYear nm).1
    year := (extractTitleYear nm).2
    url := match d.itemSlug with
      | some slug =>
        if slug.isEmpty then none
        else some (cs "https://letterboxd.com/film/" ++ slug ++ cs "/")
      | none => none
    poster := none }

/-- The per-item extraction loop of `fetch_page` (scraper.py lines 82-106).
Items without a react div are skipped (`if poster_div:`).  When a react div
is present but has no `data-item-name`, `full_name` is `None` and
`re.search(pattern, None)` raises `TypeError`; the page-level `except`
swallows it, which this model renders as `none` for the whole page. -/
def parseGridItems : List GridItem → Option (List Movie)
  | [] => some []
  | it :: rest =>
    match it.reactDiv with
    | none => parseGridItems rest
    | some d =>
      match d.itemName with
      | none => none
      | some nm => (parseGridItems rest).map (fun ms => movieOfItem d nm :: ms)

/-- What one page fetch can observe: a raised request/transport exception, or
an HTTP response with its status and the `li.griditem` elements BeautifulSoup
finds in the body. -/
inductive FetchResp where
  | failure : FetchResp
  | ok : Nat → List GridItem → FetchResp
deriving DecidableEq, Repr

/-- The request path built by `fetch_page` (scraper.py line 52):
`https://letterboxd.com/{username}/watchlist/page/{page}/`.  The function
receives no genre or decade argument, so no filter segment can appear. -/
def fetchPageUrl (username : List Char) (pageDigits : List Char) : List Char :=
  cs "https://letterboxd.com/" ++ username ++ cs "/watchlist/page/" ++ pageDigits ++ cs "/"

/-- `fetch_page` (scraper.py lines 40-111) as a function of the observed
response: any exception yields `[]`; any status other than 200 yields `[]`
(line 62); a 200 page yields its extracted movies, with a per-item parse
exception downgrading the whole page to `[]` (lines 108-111).  A 200 page
with no grid items also yields `[]` (lines 73-74). -/
def fetch_page (resp : FetchResp) : List Movie :=
  match resp with
  | .failure => []
  | .ok status items =>
    if status ≠ 200 then []
    else
      match parseGridItems items with
      | some ms => ms
      | none => []

/-- The concatenation loop of `scrape_watchlist_async` (scraper.py
lines 146-151): start from the page-1 list and `extend` with the list of
each later page, skipping falsy (empty) ones. -/
def concatPages (page1 : List Movie) (results : List (List Movie)) : List Movie :=
  results.foldl (fun acc ms => if ms.isEmpty then acc else acc ++ ms) page1

/-- `scrape_watchlist_async` (scraper.py lines 114-154), parameterized by the
per-page fetch results.  Page 1 is fetched first; if it is falsy (empty) the
function returns `None` (lines 132-134).  Otherwise pages 2 through 20
(`range(2, 21)`) are fetched and their lists concatenated after the page-1 list. -/
def scrape_watchlist_async (fetch : Nat → List Movie) : Option (List Movie) :=
  let page1 := fetch 1
  if page1.isEmpty then none
  else some (concatPages page1 ((List.range' 2 19).map fetch))

/-- The scrape pipeline driven by raw page responses: every page goes through
`fetch_page` before aggregation. -/
def scrapeFromResponses (resps : Nat → FetchResp) : Option (List Movie) :=
  scrape_watchlist_async (fun n => fetch_page (resps n))

/-! ### JSON serialization, as performed by json.dumps and json.loads
on the movie lists stored in Redis (scraper.py lines 179 and 195). -/

/-- Lowercase hex digit, as Python uses in its JSON escape sequences. -/
def hexDigit (n : Nat) : Char := Nat.digitChar n

/-- The four hex digits of a code unit below `0x10000`, most significant
first, as emitted in a JSON escape sequence. -/
def toHex4 (n : Nat) : List Char :=
  [hexDigit (n / 4096 % 16), hexDigit (n / 256 % 16), hexDigit (n / 16 % 16), hexDigit (n % 16)]

/-- Value of one hex digit as accepted by the JSON escape scanner of
json.loads (decimal digits, lowercase and uppercase letters). -/
def hexVal (c : Char) : Option Nat :=
  if c.isDigit then some (c.toNat - 48)
  else if 'a' ≤ c ∧ c ≤ 'f' then some (c.toNat - 87)
  else if 'A' ≤ c ∧ c ≤ 'F' then some (c.toNat - 55)
  else none

/-- The escape of a single character performed by json.dumps with its
default `ensure_ascii=True`: quote and backslash get a backslash escape,
the common control characters get their short escapes, all other characters
outside the printable ASCII range `0x20`-`0x7e` get a `\uXXXX` escape, with
characters beyond the Basic Multilingual Plane split into a UTF-16
surrogate pair. -/
def escChar (c : Char) : List Char :=
  if c = '"' then ['\\', '"']
  else if c = '\\' then ['\\', '\\']
  else if c = '\n' then ['\\', 'n']
  else if c = '\r' then ['\\', 'r']
  else if c = '\t' then ['\\', 't']
  else if c = '\x08' then ['\\', 'b']
  else if c = '\x0c' then ['\\', 'f']
  else if c.toNat < 0x20 then '\\' :: 'u' :: toHex4 c.toNat
  else if c.toNat < 0x7f then [c]
  else if c.toNat < 0x10000 then '\\' :: 'u' :: toHex4 c.toNat
  else
    '\\' :: 'u' :: toHex4 (0xd800 + (c.toNat - 0x10000) / 0x400) ++
      ('\\' :: 'u' :: toHex4 (0xdc00 + (c.toNat - 0x10000) % 0x400))

/-- The body of a JSON string serialization: every character escaped. -/
def escBody : List Char → List Char
  | [] => []
  | c :: s => escChar c ++ escBody s

/-- json.dumps of one string: double quotes around the escaped body. -/
def encodeStr (s : List Char) : List Char := '"' :: (escBody s ++ ['"'])

/-- Decimal digits of `n` (the json.dumps rendering of a non-negative int),
driven by a fuel argument so that the definition is structurally
recursive; `natToDec` supplies sufficient fuel. -/
def natToDecAux : Nat → Nat → List Char
  | 0, _ => []
  | fuel + 1, n =>
    if n < 10 then [Nat.digitChar n]
    else natToDecAux fuel (n / 10) ++ [Nat.digitChar (n % 10)]

/-- json.dumps of a non-negative int: its decimal digits. -/
def natToDec (n : Nat) : List Char := natToDecAux (n + 1) n

/-- Value of a list of decimal digits, most significant first (what
json.loads produces for an integer literal). -/
def decVal (ds : List Char) : Nat :=
  ds.foldl (fun a c => a * 10 + (c.toNat - 48)) 0

/-- The single-character JSON escapes accepted after a backslash by
json.loads (the `\uXXXX` form is handled separately). -/
def escLookup (e : Char) : Option Char :=
  if e = '"' then some '"'
  else if e = '\\' then some '\\'
  else if e = '/' then some '/'
  else if e = 'n' then some '\n'
  else if e = 't' then some '\t'
  else if e = 'r' then some '\r'
  else if e = 'b' then some '\x08'
  else if e = 'f' then some '\x0c'
  else none

/-- Four hex digits at the head of the input, combined into their value
(the payload scanner of a backslash-u escape). -/
def hexQuad (input : List Char) : Option (Nat × List Char) :=
  match input with
  | h1 :: h2 :: h3 :: h4 :: rest =>
    match hexVal h1, hexVal h2, hexVal h3, hexVal h4 with
    | some a1, some a2, some a3, some a4 => some (((a1 * 16 + a2) * 16 + a3) * 16 + a4, rest)
    | _, _, _, _ => none
  | _ => none

/-- Decoding of the hex escape payload that follows a backslash-u in a JSON
string: four hex digits, joined with a following low-surrogate escape when
they code a high surrogate.  Lone surrogate escapes are rejected; json.dumps
never produces them for well-formed input, so this only restricts the
scanner on inputs outside the image of the serializer. -/
def decodeUEsc (input : List Char) : Option (Char × List Char) :=
  match hexQuad input with
  | none => none
  | some (n, rest) =>
    if 0xd800 ≤ n ∧ n < 0xdc00 then
      match rest with
      | b1 :: b2 :: rest2 =>
        if b1 = '\\' ∧ b2 = 'u' then
          match hexQuad rest2 with
          | some (m, rest3) =>
            if 0xdc00 ≤ m ∧ m < 0xe000 then
              some (Char.ofNat (0x10000 + (n - 0xd800) * 0x400 + (m - 0xdc00)), rest3)
            else none
          | none => none
        else none
      | _ => none
    else if 0xdc00 ≤ n ∧ n < 0xe000 then none
    else some (Char.ofNat n, rest)

/-- One step of the JSON string-body scanner of json.loads, at a character
`c` with remaining input `rest`: the closing quote ends the string, a
backslash introduces a short escape or a backslash-u escape, raw control
characters are rejected (strict mode), and any other character stands for
itself; `recur` continues the scan. -/
def parseStrStep (recur : List Char → Option (List Char × List Char)) (c : Char)
    (rest : List Char) : Option (List Char × List Char) :=
  if c = '"' then some ([], rest)
  else if c = '\\' then
    match rest with
    | [] => none
    | e :: rest2 =>
      if e = 'u' then
        match decodeUEsc rest2 with
        | some (ch, rest3) => (recur rest3).map (fun p => (ch :: p.1, p.2))
        | none => none
      else
        match escLookup e with
        | some d => (recur rest2).map (fun p => (d :: p.1, p.2))
        | none => none
  else if c.toNat < 0x20 then none
  else (recur rest).map (fun p => (c :: p.1, p.2))

/-- The JSON string-body scanner of json.loads: consumes characters up to
the closing quote.  One unit of fuel is spent per decoded character, so the
input length plus one is always sufficient fuel. -/
def parseStrAux : Nat → List Char → Option (List Char × List Char)
  | 0, _ => none
  | _ + 1, [] => none
  | fuel + 1, c :: rest => parseStrStep (parseStrAux fuel) c rest

/-- json.loads of a JSON string at the current position: an opening quote
followed by the escaped body. -/
def parseString (input : List Char) : Option (List Char × List Char) :=
  match input with
  | c :: rest => if c = '"' then parseStrAux (rest.length + 1) rest else none
  | [] => none

/-- Consumes an expected literal piece of text from the input, returning
the remainder. -/
def expectCs : List Char → List Char → Option (List Char)
  | [], input => some input
  | _ :: _, [] => none
  | c :: pre, d :: input => if c = d then expectCs pre input else none

/-- json.loads of an integer literal: the maximal run of leading decimal
digits. -/
def parseNatNum (input : List Char) : Option (Nat × List Char) :=
  match input.takeWhile (fun c => c.isDigit) with
  | [] => none
  | ds => some (decVal ds, input.dropWhile (fun c => c.isDigit))

/-- json.loads of an int-or-null field value. -/
def parseOptNat (input : List Char) : Option (Option Nat × List Char) :=
  match input with
  | [] => none
  | c :: rest =>
    if c = 'n' then (expectCs (cs "ull") rest).map (fun r => ((none : Option Nat), r))
    else (parseNatNum input).map (fun p => (some p.1, p.2))

/-- json.loads of a string-or-null field value. -/
def parseOptStr (input : List Char) : Option (Option (List Char) × List Char) :=
  match input with
  | [] => none
  | c :: _ =>
    if c = 'n' then (expectCs (cs "ull") input.tail).map (fun r => ((none : Option (List Char)), r))
    else (parseString input).map (fun p => (some p.1, p.2))

/-- The opening of a serialized movie dict: json.dumps renders the dict with
its keys in insertion order (title, year, url, poster) and with the default
separators. -/
def kTitle : List Char := cs "\x7b\"title\": "

/-- Separator and key preceding the year field. -/
def kYear : List Char := cs ", \"year\": "

/-- Separator and key preceding the url field. -/
def kUrl : List Char := cs ", \"url\": "

/-- Separator and key preceding the poster field. -/
def kPoster : List Char := cs ", \"poster\": "

/-- json.dumps of an int-or-None field value. -/
def encOptNat : Option Nat → List Char
  | some n => natToDec n
  | none => cs "null"

/-- json.dumps of a string-or-None field value. -/
def encOptStr : Option (List Char) → List Char
  | some s => encodeStr s
  | none => cs "null"

/-- json.dumps of one movie dict. -/
def encodeMovie (m : Movie) : List Char :=
  kTitle ++ (encodeStr m.title ++ (kYear ++ (encOptNat m.year ++
    (kUrl ++ (encOptStr m.url ++ (kPoster ++ (encOptStr m.poster ++ ['\x7d'])))))))

/-- The comma-separated bodies of the serialized movies of a list. -/
def encodeBody : List Movie → List Char
  | [] => []
  | m :: ms =>
    encodeMovie m ++ (match ms with | [] => [] | _ :: _ => ',' :: ' ' :: encodeBody ms)

/-- json.dumps of a movie list: the serialized movies between brackets. -/
def encodeMovies (l : List Movie) : List Char := '[' :: (encodeBody l ++ [']'])

/-- json.loads of one movie dict, at the grammar json.dumps produces. -/
def parseMovie (input : List Char) : Option (Movie × List Char) :=
  (expectCs kTitle input).bind fun r1 =>
  (parseString r1).bind fun p1 =>
  (expectCs kYear p1.2).bind fun r3 =>
  (parseOptNat r3).bind fun p2 =>
  (expectCs kUrl p2.2).bind fun r5 =>
  (parseOptStr r5).bind fun p3 =>
  (expectCs kPoster p3.2).bind fun r7 =>
  (parseOptStr r7).bind fun p4 =>
  match p4.2 with
  | c :: r9 => if c = '\x7d' then some (⟨p1.1, p2.1, p3.1, p4.1⟩, r9) else none
  | [] => none

/-- json.loads of a comma-separated run of movie dicts; one unit of fuel is
spent per movie, so any fuel bound above the number of serialized movies
suffices. -/
def parseItemsAux : Nat → List Char → Option (List Movie × List Char)
  | 0, _ => none
  | fuel + 1, input =>
    match parseMovie input with
    | none => none
    | some (m, r) =>
      match r with
      | a :: b :: r2 =>
        if a = ',' ∧ b = ' ' then
          (parseItemsAux fuel r2).map (fun p => (m :: p.1, p.2))
        else some ([m], r)
      | _ => some ([m], r)

/-- json.loads of a whole serialized movie list (the only document shape
this application ever stores): brackets around the comma-separated movie
dicts, with nothing after the closing bracket. -/
def decodeMovies (input : List Char) : Option (List Movie) :=
  match input with
  | [] => none
  | c :: rest =>
    if c = '[' then
      match rest with
      | [] => none
      | d :: rest2 =>
        if d = ']' then (if rest2 = [] then some [] else none)
        else
          match parseItemsAux (rest.length + 1) rest with
          | some (ms, r) => if r = [']'] then some ms else none
          | none => none
    else none

/-! ### The cache layer (Redis via setex/get) and get_watchlist_movies -/

/-- The cache TTL of 6 hours (scraper.py line 33). -/
def CACHE_EXPIRATION : Nat := 21600

/-- The shared Redis key space: entries of key, stored string value, and
absolute expiry instant.  A `setex` write prepends, shadowing earlier
entries under the same key, which models overwriting. -/
abbrev CacheStore : Type := List (List Char × List Char × Nat)

/-- `redis_client.get`: the value of the most recent entry under the key,
absent when there is none or when it has expired (Redis drops entries at
their expiry instant). -/
def cacheGet (c : CacheStore) (k : List Char) (now : Nat) : Option (List Char) :=
  match c with
  | [] => none
  | e :: rest =>
    if e.1 = k then (if now < e.2.2 then some e.2.1 else none)
    else cacheGet rest k now

/-- `redis_client.setex`: store the value under the key with an expiry
`ttl` seconds from now. -/
def cacheSetex (c : CacheStore) (k : List Char) (ttl now : Nat) (v : List Char) : CacheStore :=
  (k, v, now + ttl) :: c

/-- The cache key derivation of `get_watchlist_movies` (scraper.py
line 173): the literal prefix followed by the username, and nothing else —
the function takes no genre or decade parameter, so the key cannot depend
on any filter. -/
def cache_key (username : List Char) : List Char := cs "watchlist:" ++ username

/-- `get_watchlist_movies` (scraper.py lines 157-199): on a cache hit,
json.loads of the stored string is returned (an unparseable stored value
would raise, modelled as `Except.error`); on a miss the scrape runs, a
`None` scrape result is returned uncached, and any other scrape result is
written through `setex` before being returned. -/
def get_watchlist_movies (c : CacheStore) (fetch : Nat → List Movie) (username : List Char)
    (now : Nat) : Except Unit (Option (List Movie)) × CacheStore :=
  match cacheGet c (cache_key username) now with
  | some data =>
    match decodeMovies data with
    | some l => (Except.ok (some l), c)
    | none => (Except.error (), c)
  | none =>
    match scrape_watchlist_async fetch with
    | none => (Except.ok none, c)
    | some movies =>
      (Except.ok (some movies),
        cacheSetex c (cache_key username) CACHE_EXPIRATION now (encodeMovies movies))

/-! ### The endpoint logic of app.py -/

/-- Python truthiness of an optional query string (`if genre` is false both
for an absent and for an empty genre). -/
def optTruthy : Option (List Char) → Bool
  | some s => ¬s.isEmpty
  | none => false

/-- What the endpoint returns: an `HTTPException` with status code and
detail string, or the success payload with username, count, selected_count
and the selected movies (app.py lines 35-71). -/
inductive ApiResult where
  | failure : Nat → List Char → ApiResult
  | success : List Char → Nat → Nat → List Movie → ApiResult
deriving DecidableEq, Repr

/-- The detail string chosen for an empty movie list, by the active filters
(app.py lines 42-49). -/
def noMoviesDetail (genre decade : Option (List Char)) : List Char :=
  if optTruthy genre ∧ optTruthy decade then cs "no_movies_filters_both"
  else if optTruthy genre then cs "no_movies_filter_genre"
  else if optTruthy decade then cs "no_movies_filter_decade"
  else cs "no_movies"

/-- Setting the poster field of a sampled movie from the TMDB lookup
(app.py lines 62-64): `movie['poster'] = get_movie_data(title, year)`,
where a lookup failure simply leaves `None`. -/
def enrichRec (enrich : List Char → Option Nat → Option (List Char)) (m : Movie) : Movie :=
  { m with poster := enrich m.title m.year }

/-- The endpoint body `get_watchlist` (app.py lines 27-71) given the value
returned by `get_watchlist_movies`.  The index list `pick` stands for the
choice `random.sample(movies, num_to_select)` makes: `random.sample` returns
`num_to_select` elements at pairwise distinct positions of its input, which
the theorems below take as hypotheses on `pick`.  `enrich` is the TMDB
client `get_movie_data`. -/
def get_watchlist (username : List Char) (genre decade : Option (List Char))
    (movies : Option (List Movie)) (pick : List Nat)
    (enrich : List Char → Option Nat → Option (List Char)) : ApiResult :=
  match movies with
  | none => .failure 404 (cs "user_not_found")
  | some ms =>
    if ms.length = 0 then .failure 404 (noMoviesDetail genre decade)
    else if ms.length < 5 then .failure 400 (cs "not_enough_movies:" ++ natToDec ms.length)
    else
      let sel := pick.map (fun i => enrichRec enrich (ms.getD i ⟨[], none, none, none⟩))
      .success username ms.length sel.length sel

/-- Movie constants used to instantiate the theorems below on concrete
data. -/
def mvA : Movie := ⟨cs "A", none, none, none⟩

/-- Second concrete movie. -/
def mvB : Movie := ⟨cs "B", none, none, none⟩

/-- Third concrete movie. -/
def mvC : Movie := ⟨cs "C", none, none, none⟩

/-- A fetch assignment with page 1 = [mvA], page 2 = [mvB], page 3 = [],
page 4 = [mvC], and all later pages empty. -/
def fetchABC : Nat → List Movie :=
  fun n => if n = 1 then [mvA] else if n = 2 then [mvB] else if n = 4 then [mvC] else []

/-- A grid item whose react div carries a full name and slug. -/
def giGood : GridItem := ⟨some ⟨some (cs "Inception (2010)"), some (cs "inception")⟩⟩

/-- A grid item whose react div lacks the data-item-name attribute. -/
def giBad : GridItem := ⟨some ⟨none, none⟩⟩

/-- A concrete movie with every field populated except the poster. -/
def mvInception : Movie :=
  ⟨cs "Inception", some 2010, some (cs "https://letterboxd.com/film/inception/"), none⟩

/-- Five concrete movies for the selection witness. -/
def msFive : List Movie :=
  [⟨cs "M1", some 2001, none, none⟩, ⟨cs "M2", some 2002, none, none⟩,
   ⟨cs "M3", some 2003, none, none⟩, ⟨cs "M4", some 2004, none, none⟩,
   ⟨cs "M5", some 2005, none, none⟩]

/-- A concrete choice of five pairwise distinct positions. -/
def pickFive : List Nat := [4, 2, 0, 1, 3]

/-- A cache state holding one valid entry for alice. -/
def invCache : CacheStore := [(cache_key (cs "alice"), encodeMovies [mvInception], 5)]

/-- The invariant of the watchlist cache: every stored value is json.dumps
of a non-empty movie list. -/
def CacheInv (c : CacheStore) : Prop :=
  ∀ e ∈ c, ∃ l : List Movie, l ≠ [] ∧ e.2.1 = encodeMovies l

example : extractTitleYear (cs "Inception (2010)") = (cs "Inception", some 2010) := by decide

example : extractTitleYear (cs "Tenet") = (cs "Tenet", none) := by decide

example : extractTitleYear (cs "(2010)") = ([], some 2010) := by decide

example : extractTitleYear (cs "1917 (2019)") = (cs "1917", some 2019) := by decide

example : extractTitleYear (cs "Movie (123)") = (cs "Movie (123)", none) := by decide

example : parseString (encodeStr (cs "a b")) = some (cs "a b", []) := by decide

example : escChar '€' = cs "\\u20ac" := by decide

set_option maxRecDepth 4096 in
example :
    decodeMovies (encodeMovies
      [⟨cs "Inception", some 2010, some (cs "https://letterboxd.com/film/inception/"), none⟩,
       ⟨cs "Tenet", none, none, none⟩]) =
    some [⟨cs "Inception", some 2010, some (cs "https://letterboxd.com/film/inception/"), none⟩,
          ⟨cs "Tenet", none, none, none⟩] := by decide

/-! ### Auxiliary lemmas -/

theorem charCodeFacts (c : Char) :
    c.toNat < 0xd800 ∨ (0xdfff < c.toNat ∧ c.toNat < 0x110000) := by
  rcases c.valid with h | ⟨h1, h2⟩
  · exact Or.inl (UInt32.toNat_lt_of_lt (by decide) h)
  · exact Or.inr ⟨UInt32.lt_toNat_of_lt (by decide) h1, UInt32.toNat_lt_of_lt (by decide) h2⟩

theorem char_toNat_lt (c : Char) : c.toNat < 0x110000 := by
  rcases charCodeFacts c with h | ⟨_, h⟩ <;> omega

theorem hexVal_hexDigit : ∀ n < 16, hexVal (hexDigit n) = some n := by decide

theorem expectCs_append (pre : List Char) : ∀ rest : List Char, expectCs pre (pre ++ rest) = some rest := by
  induction pre with
  | nil => intro rest; rfl
  | cons c pre ih => intro rest; simp [expectCs, ih]

theorem takeWhile_append_of_all {p : Char → Bool} (xs ys : List Char)
    (h : ∀ c ∈ xs, p c = true) : (xs ++ ys).takeWhile p = xs ++ ys.takeWhile p := by
  induction xs with
  | nil => simp
  | cons c xs ih =>
    have hc : p c = true := h c (by simp)
    simp only [List.cons_append, List.takeWhile_cons, hc]
    simp [ih (fun d hd => h d (by simp [hd]))]

theorem dropWhile_append_of_all {p : Char → Bool} (xs ys : List Char)
    (h : ∀ c ∈ xs, p c = true) : (xs ++ ys).dropWhile p = ys.dropWhile p := by
  induction xs with
  | nil => simp
  | cons c xs ih =>
    have hc : p c = true := h c (by simp)
    simp only [List.cons_append, List.dropWhile_cons, hc]
    simp [ih (fun d hd => h d (by simp [hd]))]

theorem takeWhile_head_false {p : Char → Bool} (ys : List Char)
    (h : ∀ c, ys.head? = some c → p c = false) : ys.takeWhile p = [] := by
  cases ys with
  | nil => rfl
  | cons c ys => simp [List.takeWhile_cons, h c rfl]

theorem dropWhile_head_false {p : Char → Bool} (ys : List Char)
    (h : ∀ c, ys.head? = some c → p c = false) : ys.dropWhile p = ys := by
  cases ys with
  | nil => rfl
  | cons c ys => simp [List.dropWhile_cons, h c rfl]

theorem natToDecAux_spec : ∀ fuel n, n < fuel →
    natToDecAux fuel n ≠ [] ∧ (∀ c ∈ natToDecAux fuel n, c.isDigit = true) ∧
      ∀ a, (natToDecAux fuel n).foldl (fun x c => x * 10 + (c.toNat - 48)) a =
        a * 10 ^ (natToDecAux fuel n).length + n := by
  intro fuel
  induction fuel with
  | zero => omega
  | succ f ih =>
    intro n hn
    by_cases h10 : n < 10
    · have hdig : (Nat.digitChar n).isDigit = true ∧ (Nat.digitChar n).toNat - 48 = n := by
        interval_cases n <;> simp [Nat.digitChar]
      refine ⟨by simp [natToDecAux, h10], ?_, ?_⟩
      · intro c hc
        simp only [natToDecAux, if_pos h10, List.mem_singleton] at hc
        simpa [hc] using hdig.1
      · intro a
        simp [natToDecAux, if_pos h10, List.foldl, hdig.2]
    · have hdiv : n / 10 < f := by omega
      obtain ⟨hne, hdigs, hval⟩ := ih (n / 10) hdiv
      have hd : (Nat.digitChar (n % 10)).isDigit = true ∧ (Nat.digitChar (n % 10)).toNat - 48 = n % 10 := by
        have : n % 10 < 10 := Nat.mod_lt _ (by omega)
        interval_cases h : n % 10 <;> simp [Nat.digitChar]
      refine ⟨by simp [natToDecAux, h10], ?_, ?_⟩
      · intro c hc
        simp only [natToDecAux, if_neg h10, List.mem_append, List.mem_singleton] at hc
        rcases hc with hc | hc
        · exact hdigs c hc
        · simpa [hc] using hd.1
      · intro a
        simp only [natToDecAux, if_neg h10, List.foldl_append, List.length_append,
          List.foldl, List.length_cons, List.length_nil, hval a]
        calc (a * 10 ^ (natToDecAux f (n / 10)).length + n / 10) * 10 +
              ((Nat.digitChar (n % 10)).toNat - 48)
            = a * (10 ^ (natToDecAux f (n / 10)).length * 10) + (n / 10 * 10 + n % 10) := by
              rw [hd.2]; ring
          _ = a * (10 ^ (natToDecAux f (n / 10)).length * 10) + n := by
              congr 1; omega
          _ = a * 10 ^ ((natToDecAux f (n / 10)).length + 1) + n := by
              rw [pow_succ]

theorem natToDec_ne_nil (n : Nat) : natToDec n ≠ [] :=
  (natToDecAux_spec (n + 1) n (by omega)).1

theorem natToDec_all_digits (n : Nat) : ∀ c ∈ natToDec n, c.isDigit = true :=
  (natToDecAux_spec (n + 1) n (by omega)).2.1

theorem decVal_natToDec (n : Nat) : decVal (natToDec n) = n := by
  have := (natToDecAux_spec (n + 1) n (by omega)).2.2 0
  simpa [decVal, natToDec] using this

/-- Recombination of a decoded surrogate pair, as performed inside the
string scanner. -/
theorem surrogate_recombine (c : Char) (h : 0x10000 ≤ c.toNat) :
    0x10000 + (0xd800 + (c.toNat - 0x10000) / 0x400 - 0xd800) * 0x400 +
      (0xdc00 + (c.toNat - 0x10000) % 0x400 - 0xdc00) = c.toNat := by
  omega

theorem hexQuad_toHex4 (n : Nat) (h : n < 0x10000) (u : List Char) :
    hexQuad (toHex4 n ++ u) = some (n, u) := by
  have e1 := hexVal_hexDigit (n / 4096 % 16) (by omega)
  have e2 := hexVal_hexDigit (n / 256 % 16) (by omega)
  have e3 := hexVal_hexDigit (n / 16 % 16) (by omega)
  have e4 := hexVal_hexDigit (n % 16) (by omega)
  have hrec : ((n / 4096 % 16 * 16 + n / 256 % 16) * 16 + n / 16 % 16) * 16 + n % 16 = n := by
    omega
  simp [toHex4, hexQuad, e1, e2, e3, e4, hrec]

theorem decodeUEsc_bmp (c : Char) (u : List Char) (h : c.toNat < 0x10000) :
    decodeUEsc (toHex4 c.toNat ++ u) = some (c, u) := by
  have hv := charCodeFacts c
  have hA : ¬(0xd800 ≤ c.toNat ∧ c.toNat < 0xdc00) := by omega
  have hB : ¬(0xdc00 ≤ c.toNat ∧ c.toNat < 0xe000) := by omega
  simp [decodeUEsc, hexQuad_toHex4 c.toNat h, hA, hB]

theorem decodeUEsc_surrogate (c : Char) (u : List Char) (h : 0x10000 ≤ c.toNat) :
    decodeUEsc (toHex4 (0xd800 + (c.toNat - 0x10000) / 0x400) ++
      ('\\' :: 'u' :: (toHex4 (0xdc00 + (c.toNat - 0x10000) % 0x400) ++ u))) = some (c, u) := by
  have hlt := char_toNat_lt c
  have hq1 := hexQuad_toHex4 (0xd800 + (c.toNat - 0x10000) / 0x400) (by omega)
    ('\\' :: 'u' :: (toHex4 (0xdc00 + (c.toNat - 0x10000) % 0x400) ++ u))
  have hq2 := hexQuad_toHex4 (0xdc00 + (c.toNat - 0x10000) % 0x400) (by omega) u
  have hA : 0xd800 ≤ 0xd800 + (c.toNat - 0x10000) / 0x400 ∧
      0xd800 + (c.toNat - 0x10000) / 0x400 < 0xdc00 := by omega
  have hB : 0xdc00 ≤ 0xdc00 + (c.toNat - 0x10000) % 0x400 ∧
      0xdc00 + (c.toNat - 0x10000) % 0x400 < 0xe000 := by omega
  have hfin : 65536 + (55296 + (c.toNat - 65536) / 1024 - 55296) * 1024 +
      (56320 + (c.toNat - 65536) % 1024 - 56320) = c.toNat := by omega
  rw [decodeUEsc.eq_def, hq1]
  simp only [if_pos hA]
  simp only [and_self, if_true]
  rw [hq2]
  simp only [if_pos hB]
  rw [hfin, Char.ofNat_toNat]

theorem parseStrStep_quote (recur : List Char → Option (List Char × List Char))
    (u : List Char) : parseStrStep recur '"' u = some ([], u) := by
  rw [parseStrStep.eq_def]
  simp

theorem parseStrStep_escape (recur : List Char → Option (List Char × List Char))
    (e d : Char) (u : List Char) (hne : ¬e = 'u') (h : escLookup e = some d) :
    parseStrStep recur '\\' (e :: u) = (recur u).map (fun p => (d :: p.1, p.2)) := by
  rw [parseStrStep.eq_def]
  simp +decide [hne, h]

theorem parseStrStep_uEsc (recur : List Char → Option (List Char × List Char))
    (rest2 rest3 : List Char) (ch : Char) (h : decodeUEsc rest2 = some (ch, rest3)) :
    parseStrStep recur '\\' ('u' :: rest2) = (recur rest3).map (fun p => (ch :: p.1, p.2)) := by
  rw [parseStrStep.eq_def]
  simp +decide [h]

theorem parseStrStep_plain (recur : List Char → Option (List Char × List Char))
    (c : Char) (u : List Char) (h1 : ¬c = '"') (h2 : ¬c = '\\') (h3 : ¬c.toNat < 0x20) :
    parseStrStep recur c u = (recur u).map (fun p => (c :: p.1, p.2)) := by
  rw [parseStrStep.eq_def]
  simp [h1, h2, h3]

theorem parseStrAux_escChar (c : Char) (u : List Char) (F : Nat) :
    parseStrAux (F + 1) (escChar c ++ u) =
      (parseStrAux F u).map (fun p => (c :: p.1, p.2)) := by
  by_cases h1 : c = '"'
  · subst h1
    simp only [escChar, if_pos rfl, List.cons_append, List.nil_append, parseStrAux]
    exact parseStrStep_escape _ _ _ _ (by decide) (by decide)
  by_cases h2 : c = '\\'
  · subst h2
    simp +decide only [escChar, List.cons_append, List.nil_append, parseStrAux]
    exact parseStrStep_escape _ _ _ _ (by decide) (by decide)
  by_cases h3 : c = '\n'
  · subst h3
    simp +decide only [escChar, List.cons_append, List.nil_append, parseStrAux]
    exact parseStrStep_escape _ _ _ _ (by decide) (by decide)
  by_cases h4 : c = '\r'
  · subst h4
    simp +decide only [escChar, List.cons_append, List.nil_append, parseStrAux]
    exact parseStrStep_escape _ _ _ _ (by decide) (by decide)
  by_cases h5 : c = '\t'
  · subst h5
    simp +decide only [escChar, List.cons_append, List.nil_append, parseStrAux]
    exact parseStrStep_escape _ _ _ _ (by decide) (by decide)
  by_cases h6 : c = '\x08'
  · subst h6
    simp +decide only [escChar, List.cons_append, List.nil_append, parseStrAux]
    exact parseStrStep_escape _ _ _ _ (by decide) (by decide)
  by_cases h7 : c = '\x0c'
  · subst h7
    simp +decide only [escChar, List.cons_append, List.nil_append, parseStrAux]
    exact parseStrStep_escape _ _ _ _ (by decide) (by decide)
  by_cases h8 : c.toNat < 0x20
  · simp only [escChar, h1, h2, h3, h4, h5, h6, h7, if_pos h8, if_neg,
      List.cons_append, List.append_assoc, parseStrAux]
    exact parseStrStep_uEsc _ _ _ _ (decodeUEsc_bmp c u (by omega))
  by_cases h9 : c.toNat < 0x7f
  · simp only [escChar, h1, h2, h3, h4, h5, h6, h7, h8, h9, if_neg, if_pos,
      List.cons_append, List.nil_append, List.singleton_append, parseStrAux]
    exact parseStrStep_plain _ _ _ h1 h2 h8
  by_cases h10 : c.toNat < 0x10000
  · simp only [escChar, h1, h2, h3, h4, h5, h6, h7, h8, h9, if_pos h10, if_neg,
      List.cons_append, List.append_assoc, parseStrAux]
    exact parseStrStep_uEsc _ _ _ _ (decodeUEsc_bmp c u (by omega))
  · simp only [escChar, h1, h2, h3, h4, h5, h6, h7, h8, h9, h10, if_neg,
      List.cons_append, List.append_assoc, List.nil_append, parseStrAux]
    exact parseStrStep_uEsc _ _ _ _ (decodeUEsc_surrogate c u (by omega))

theorem escChar_length_pos (c : Char) : 1 ≤ (escChar c).length := by
  unfold escChar
  repeat' split
  all_goals simp [toHex4]

theorem escBody_length (s : List Char) : s.length ≤ (escBody s).length := by
  induction s with
  | nil => simp [escBody]
  | cons c s ih =>
    have := escChar_length_pos c
    simp only [escBody, List.length_append, List.length_cons]
    omega

theorem parseStrAux_encode : ∀ (s t : List Char) (F : Nat), s.length + 1 ≤ F →
    parseStrAux F (escBody s ++ '"' :: t) = some (s, t) := by
  intro s
  induction s with
  | nil =>
    intro t F hF
    match F, hF with
    | F' + 1, _ =>
      simp only [escBody, List.nil_append, parseStrAux]
      exact parseStrStep_quote _ t
  | cons c s ih =>
    intro t F hF
    match F, hF with
    | F' + 1, hF =>
      have hstep := parseStrAux_escChar c (escBody s ++ '"' :: t) F'
      simp only [escBody, List.append_assoc] at hstep ⊢
      simp only [List.length_cons] at hF
      rw [hstep, ih t F' (by omega)]
      rfl

theorem parseString_encodeStr (s t : List Char) :
    parseString (encodeStr s ++ t) = some (s, t) := by
  have hshape : encodeStr s ++ t = '"' :: (escBody s ++ '"' :: t) := by
    simp [encodeStr]
  rw [hshape]
  have hlen : s.length + 1 ≤ (escBody s ++ '"' :: t).length + 1 := by
    have := escBody_length s
    simp only [List.length_append, List.length_cons]
    omega
  simp only [parseString, if_pos rfl]
  exact parseStrAux_encode s t _ hlen

theorem parseNatNum_enc (n : Nat) (r : List Char)
    (hr : ∀ c, r.head? = some c → c.isDigit = false) :
    parseNatNum (natToDec n ++ r) = some (n, r) := by
  have htake : (natToDec n ++ r).takeWhile (fun c => c.isDigit) = natToDec n := by
    rw [takeWhile_append_of_all _ _ (natToDec_all_digits n), takeWhile_head_false r hr,
      List.append_nil]
  have hdrop : (natToDec n ++ r).dropWhile (fun c => c.isDigit) = r := by
    rw [dropWhile_append_of_all _ _ (natToDec_all_digits n), dropWhile_head_false r hr]
  obtain ⟨d, ds, hcons⟩ : ∃ d ds, natToDec n = d :: ds := by
    cases h : natToDec n with
    | nil => exact absurd h (natToDec_ne_nil n)
    | cons d ds => exact ⟨d, ds, rfl⟩
  unfold parseNatNum
  rw [htake, hcons]
  dsimp only
  rw [← hcons, hdrop, decVal_natToDec]

theorem parseOptNat_null (r : List Char) : parseOptNat (cs "null" ++ r) = some (none, r) := by
  rw [show cs "null" ++ r = 'n' :: (cs "ull" ++ r) from rfl]
  simp only [parseOptNat, if_pos rfl]
  rw [expectCs_append]
  rfl

theorem parseOptNat_num (n : Nat) (r : List Char)
    (hr : ∀ c, r.head? = some c → c.isDigit = false) :
    parseOptNat (natToDec n ++ r) = some (some n, r) := by
  obtain ⟨d, ds, hcons⟩ : ∃ d ds, natToDec n = d :: ds := by
    cases h : natToDec n with
    | nil => exact absurd h (natToDec_ne_nil n)
    | cons d ds => exact ⟨d, ds, rfl⟩
  have hd : d.isDigit = true := natToDec_all_digits n d (by rw [hcons]; exact List.mem_cons_self d ds)
  have hdn : ¬d = 'n' := by
    intro he
    rw [he] at hd
    exact absurd hd (by decide)
  rw [hcons, List.cons_append]
  simp only [parseOptNat, if_neg hdn]
  rw [← List.cons_append, ← hcons, parseNatNum_enc n r hr]
  rfl

theorem parseOptStr_null (r : List Char) : parseOptStr (cs "null" ++ r) = some (none, r) := by
  rw [show cs "null" ++ r = 'n' :: (cs "ull" ++ r) from rfl]
  simp only [parseOptStr, if_pos rfl]
  rw [show ('n' :: (cs "ull" ++ r)).tail = cs "ull" ++ r from rfl, expectCs_append]
  rfl

theorem parseOptStr_str (s r : List Char) :
    parseOptStr (encodeStr s ++ r) = some (some s, r) := by
  have hsh : encodeStr s ++ r = '"' :: ((escBody s ++ ['"']) ++ r) := by
    simp [encodeStr]
  rw [hsh]
  simp only [parseOptStr, if_neg (by decide : ¬('"' : Char) = 'n')]
  rw [← hsh, parseString_encodeStr]
  rfl

theorem parseOptNat_encOptNat (y : Option Nat) (X : List Char) :
    parseOptNat (encOptNat y ++ (kUrl ++ X)) = some (y, kUrl ++ X) := by
  cases y with
  | none => exact parseOptNat_null _
  | some n =>
    refine parseOptNat_num n _ ?_
    intro c hc
    rw [show (kUrl ++ X).head? = some ',' from rfl] at hc
    injection hc with h2
    rw [← h2]
    decide

theorem parseOptStr_encOptStr (o : Option (List Char)) (X : List Char) :
    parseOptStr (encOptStr o ++ X) = some (o, X) := by
  cases o with
  | none => exact parseOptStr_null X
  | some s => exact parseOptStr_str s X

theorem parseMovie_enc (m : Movie) (t : List Char) :
    parseMovie (encodeMovie m ++ t) = some (m, t) := by
  simp only [encodeMovie, List.append_assoc, parseMovie, expectCs_append,
    parseString_encodeStr, parseOptNat_encOptNat, parseOptStr_encOptStr,
    Option.some_bind, List.singleton_append]
  rfl

theorem encodeMovie_length_pos (m : Movie) : 1 ≤ (encodeMovie m).length := by
  simp [encodeMovie, kTitle, cs]

theorem encodeBody_length : ∀ l : List Movie, l.length ≤ (encodeBody l).length := by
  intro l
  induction l with
  | nil => simp [encodeBody]
  | cons m ms ih =>
    have hm := encodeMovie_length_pos m
    cases ms with
    | nil => simpa [encodeBody] using hm
    | cons m2 ms2 =>
      simp only [encodeBody, List.length_append, List.length_cons] at ih ⊢
      omega

theorem parseItemsAux_enc : ∀ (l : List Movie) (F : Nat), l ≠ [] → l.length ≤ F →
    parseItemsAux F (encodeBody l ++ [']']) = some (l, [']']) := by
  intro l
  induction l with
  | nil => intro F h; exact absurd rfl h
  | cons m ms ih =>
    intro F hne hF
    simp only [List.length_cons] at hF
    obtain ⟨F', rfl⟩ : ∃ F', F = F' + 1 := ⟨F - 1, by omega⟩
    cases ms with
    | nil =>
      simp only [encodeBody, List.append_nil, parseItemsAux, parseMovie_enc m [']']]
    | cons m2 ms2 =>
      have hbody : encodeBody (m :: m2 :: ms2) ++ [']'] =
          encodeMovie m ++ (',' :: ' ' :: (encodeBody (m2 :: ms2) ++ [']'])) := by
        simp [encodeBody]
      rw [hbody]
      simp only [parseItemsAux, parseMovie_enc m (',' :: ' ' :: (encodeBody (m2 :: ms2) ++ [']']))]
      simp only [List.length_cons] at hF
      rw [ih F' (by simp) (by simp only [List.length_cons]; omega)]
      simp +decide

theorem decodeMovies_encodeMovies (l : List Movie) :
    decodeMovies (encodeMovies l) = some l := by
  cases l with
  | nil => rfl
  | cons m ms =>
    obtain ⟨tl, htl⟩ : ∃ tl, encodeBody (m :: ms) ++ [']'] = '\x7b' :: tl := ⟨_, rfl⟩
    rw [show encodeMovies (m :: ms) = '[' :: (encodeBody (m :: ms) ++ [']']) from rfl]
    rw [decodeMovies.eq_def]
    dsimp only
    rw [if_pos rfl, htl]
    dsimp only
    rw [if_neg (by decide : ¬('\x7b' : Char) = ']'), ← htl]
    have hF : (m :: ms).length ≤ (encodeBody (m :: ms) ++ [']']).length + 1 := by
      have := encodeBody_length (m :: ms)
      simp only [List.length_append, List.length_cons] at this ⊢
      omega
    rw [parseItemsAux_enc (m :: ms) _ (by simp) hF]
    simp

theorem concatPages_eq_append_flatten : ∀ (results : List (List Movie)) (page1 : List Movie),
    concatPages page1 results = page1 ++ results.flatten := by
  intro results
  induction results with
  | nil => intro p; simp [concatPages]
  | cons r rs ih =>
    intro p
    have hstep : (if r.isEmpty then p else p ++ r) = p ++ r := by
      cases r <;> simp
    simp only [concatPages, List.foldl_cons, hstep]
    rw [show List.foldl (fun acc ms => if ms.isEmpty then acc else acc ++ ms) (p ++ r) rs =
        concatPages (p ++ r) rs from rfl, ih (p ++ r)]
    simp [List.flatten_cons]

theorem scrape_eq_flatten (fetch : Nat → List Movie) (h : fetch 1 ≠ []) :
    scrape_watchlist_async fetch = some (((List.range' 1 20).map fetch).flatten) := by
  have h1 : (fetch 1).isEmpty = false := by simpa using h
  rw [show List.range' 1 20 = 1 :: List.range' 2 19 from rfl]
  simp only [scrape_watchlist_async, h1, Bool.false_eq_true, if_false, List.map_cons,
    List.flatten_cons, concatPages_eq_append_flatten]

theorem scrape_none_iff (fetch : Nat → List Movie) :
    scrape_watchlist_async fetch = none ↔ fetch 1 = [] := by
  constructor
  · intro h
    by_contra hne
    rw [scrape_eq_flatten fetch hne] at h
    exact Option.noConfusion h
  · intro h
    simp [scrape_watchlist_async, h]

theorem scrape_some_ne_nil (fetch : Nat → List Movie) (l : List Movie)
    (h : scrape_watchlist_async fetch = some l) : l ≠ [] := by
  by_cases hp : fetch 1 = []
  · rw [(scrape_none_iff fetch).mpr hp] at h
    exact Option.noConfusion h
  · rw [scrape_eq_flatten fetch hp] at h
    injection h with h2
    rw [← h2, show List.range' 1 20 = 1 :: List.range' 2 19 from rfl]
    simp only [List.map_cons, List.flatten_cons]
    intro hcontra
    exact hp (List.append_eq_nil.mp hcontra).1

/-! ### Claim theorems -/

theorem reSearchYear_pos (t : List Char) (d1 d2 d3 d4 : Char)
    (h1 : d1.isDigit) (h2 : d2.isDigit) (h3 : d3.isDigit) (h4 : d4.isDigit) :
    reSearchYear (t ++ '(' :: d1 :: d2 :: d3 :: d4 :: [')']) =
      some (1000 * digitVal d1 + 100 * digitVal d2 + 10 * digitVal d3 + digitVal d4) := by
  have hrev : (t ++ '(' :: d1 :: d2 :: d3 :: d4 :: [')']).reverse =
      ')' :: d4 :: d3 :: d2 :: d1 :: '(' :: t.reverse := by simp
  unfold reSearchYear
  rw [hrev]
  dsimp only
  rw [if_pos ⟨rfl, rfl, h4, h3, h2, h1⟩]

theorem reSubYear_pos (t : List Char) (d1 d2 d3 d4 : Char)
    (h1 : d1.isDigit) (h2 : d2.isDigit) (h3 : d3.isDigit) (h4 : d4.isDigit) :
    reSubYear (t ++ '(' :: d1 :: d2 :: d3 :: d4 :: [')']) = rstripWs t := by
  have hrev : (t ++ '(' :: d1 :: d2 :: d3 :: d4 :: [')']).reverse =
      ')' :: d4 :: d3 :: d2 :: d1 :: '(' :: t.reverse := by simp
  unfold reSubYear
  rw [hrev]
  dsimp only
  rw [if_pos ⟨rfl, rfl, h4, h3, h2, h1⟩]
  rfl

/-- C5: a raw name string that ends in a parenthesized four-digit group
splits into the text before the group with its trailing whitespace removed
and the four-digit year; any string not of that shape is returned unchanged
with no year. -/
theorem C5_title_year_extraction (s : List Char) :
    (∀ (t : List Char) (d1 d2 d3 d4 : Char),
        d1.isDigit → d2.isDigit → d3.isDigit → d4.isDigit →
        s = t ++ '(' :: d1 :: d2 :: d3 :: d4 :: [')'] →
        extractTitleYear s = (rstripWs t,
          some (1000 * digitVal d1 + 100 * digitVal d2 + 10 * digitVal d3 + digitVal d4))) ∧
    ((¬∃ (t : List Char) (d1 d2 d3 d4 : Char),
        (d1.isDigit ∧ d2.isDigit ∧ d3.isDigit ∧ d4.isDigit) ∧
        s = t ++ '(' :: d1 :: d2 :: d3 :: d4 :: [')']) →
        extractTitleYear s = (s, none)) := by
  constructor
  · intro t d1 d2 d3 d4 h1 h2 h3 h4 heq
    subst heq
    unfold extractTitleYear
    rw [reSearchYear_pos t d1 d2 d3 d4 h1 h2 h3 h4, reSubYear_pos t d1 d2 d3 d4 h1 h2 h3 h4]
  · intro hnot
    rcases hrev : s.reverse with _ | ⟨c0, _ | ⟨c1, _ | ⟨c2, _ | ⟨c3, _ | ⟨c4, _ | ⟨c5, rest⟩⟩⟩⟩⟩⟩
    · simp [extractTitleYear, reSearchYear, hrev]
    · simp [extractTitleYear, reSearchYear, hrev]
    · simp [extractTitleYear, reSearchYear, hrev]
    · simp [extractTitleYear, reSearchYear, hrev]
    · simp [extractTitleYear, reSearchYear, hrev]
    · simp [extractTitleYear, reSearchYear, hrev]
    · by_cases hcond : c0 = ')' ∧ c5 = '(' ∧ c1.isDigit ∧ c2.isDigit ∧ c3.isDigit ∧ c4.isDigit
      · exfalso
        apply hnot
        have hs : s = rest.reverse ++ [c5, c4, c3, c2, c1, c0] := by
          rw [← List.reverse_reverse s, hrev]
          simp
        refine ⟨rest.reverse, c4, c3, c2, c1,
          ⟨hcond.2.2.2.2.2, hcond.2.2.2.2.1, hcond.2.2.2.1, hcond.2.2.1⟩, ?_⟩
        rw [hs, hcond.1, hcond.2.1]
      · simp [extractTitleYear, reSearchYear, hrev, hcond]

/-- C6: aggregation concatenates the per-page lists of pages 1 through 20
in strict page order; pages with zero items contribute nothing and do not
disturb the order of later pages. -/
theorem C6_page_order_concat (fetch : Nat → List Movie) (h : fetch 1 ≠ []) :
    scrape_watchlist_async fetch = some (((List.range' 1 20).map fetch).flatten) :=
  scrape_eq_flatten fetch h

/-- Witness for C6 at the example assignment from the specification:
pages [A], [B], [], [C] yield [A, B, C]. -/
theorem C6_page_order_concat_witness :
    fetchABC 1 ≠ [] ∧
    scrape_watchlist_async fetchABC = some (((List.range' 1 20).map fetchABC).flatten) ∧
    ((List.range' 1 20).map fetchABC).flatten = [mvA, mvB, mvC] :=
  ⟨by decide, C6_page_order_concat fetchABC (by decide), by decide⟩

/-- C5 witness: concrete extractions, one matching the year pattern and one
not matching it. -/
theorem C5_title_year_extraction_witness :
    extractTitleYear (cs "Inception (2010)") = (cs "Inception", some 2010) ∧
    extractTitleYear (cs "Tenet") = (cs "Tenet", none) := by
  constructor
  · have h := (C5_title_year_extraction (cs "Inception (2010)")).1 (cs "Inception ")
      '2' '0' '1' '0' (by decide) (by decide) (by decide) (by decide) (by decide)
    rw [h]
    decide
  · refine (C5_title_year_extraction (cs "Tenet")).2 ?_
    rintro ⟨t, d1, d2, d3, d4, _, he⟩
    have hlen := congrArg List.length he
    simp only [List.length_append] at hlen
    rw [show (cs "Tenet").length = 5 from rfl] at hlen
    simp at hlen

/-- C1 counterexample: a world in which every page, page 1 included, is a
200 response with zero items — the user exists and has an empty watchlist,
and no page is a 404 — yet aggregation returns `None`, which the endpoint
maps to the `user_not_found` failure; no distinct Empty outcome occurs. -/
theorem C1_counterexample :
    scrapeFromResponses (fun _ => FetchResp.ok 200 []) = none ∧
    get_watchlist (cs "alice") none none (scrapeFromResponses (fun _ => FetchResp.ok 200 []))
      [] (fun _ _ => none) = ApiResult.failure 404 (cs "user_not_found") :=
  ⟨rfl, rfl⟩

/-- C1 amended: aggregation returns `None` — surfaced as the user-not-found
outcome — exactly when page 1 yields zero items, whatever the reason; in
every other case it returns the page-order concatenation, which is never
empty, and no separate Empty outcome exists. -/
theorem C1_aggregation_outcomes (fetch : Nat → List Movie) :
    (scrape_watchlist_async fetch = none ↔ fetch 1 = []) ∧
    (∀ l, scrape_watchlist_async fetch = some l →
      l = fetch 1 ++ ((List.range' 2 19).map fetch).flatten ∧ l ≠ []) := by
  refine ⟨scrape_none_iff fetch, ?_⟩
  intro l hl
  refine ⟨?_, scrape_some_ne_nil fetch l hl⟩
  by_cases hp : fetch 1 = []
  · rw [(scrape_none_iff fetch).mpr hp] at hl
    exact Option.noConfusion hl
  · rw [scrape_eq_flatten fetch hp] at hl
    injection hl with h2
    rw [← h2, show List.range' 1 20 = 1 :: List.range' 2 19 from rfl]
    simp

/-- Witness for the amended C1 at a concrete fetch assignment. -/
theorem C1_aggregation_outcomes_witness :
    scrape_watchlist_async fetchABC = some [mvA, mvB, mvC] ∧
    ([mvA, mvB, mvC] = fetchABC 1 ++ ((List.range' 2 19).map fetchABC).flatten ∧
      [mvA, mvB, mvC] ≠ ([] : List Movie)) :=
  ⟨by decide, (C1_aggregation_outcomes fetchABC).2 [mvA, mvB, mvC] (by decide)⟩

/-- C4 counterexample: a 404 page, a 500 page and an empty 200 page all
produce the same value, so the fetch result carries no NotFound marker
distinct from TransientError or Empty. -/
theorem C4_counterexample :
    fetch_page (FetchResp.ok 404 []) = fetch_page (FetchResp.ok 500 []) ∧
    fetch_page (FetchResp.ok 404 []) = fetch_page (FetchResp.ok 200 []) :=
  ⟨rfl, rfl⟩

/-- C4 amended: `fetch_page` collapses every non-200 status, every raised
exception, and every 200 page without items into the same zero-item
result. -/
theorem C4_status_collapse :
    (∀ (s : Nat) (items : List GridItem), s ≠ 200 → fetch_page (FetchResp.ok s items) = []) ∧
    fetch_page FetchResp.failure = [] ∧ fetch_page (FetchResp.ok 200 []) = [] := by
  refine ⟨?_, rfl, rfl⟩
  intro s items hs
  simp [fetch_page, hs]

/-- Witness for the amended C4: a 404 response is discarded even when its
body contains a parsable item. -/
theorem C4_status_collapse_witness :
    (404 ≠ 200) ∧ fetch_page (FetchResp.ok 404 [giGood]) = [] :=
  ⟨by decide, C4_status_collapse.1 404 [giGood] (by decide)⟩

theorem parseGridItems_hits_missing_name : ∀ items : List GridItem,
    (∃ it ∈ items, ∃ d : ReactDiv, it.reactDiv = some d ∧ d.itemName = none) →
    parseGridItems items = none := by
  intro items
  induction items with
  | nil =>
    rintro ⟨it, hmem, _⟩
    exact absurd hmem (List.not_mem_nil it)
  | cons it rest ih =>
    rintro ⟨it0, hmem, d0, hd, hn⟩
    rcases List.mem_cons.mp hmem with heq | hmem2
    · subst heq
      simp [parseGridItems, hd, hn]
    · have hrest := ih ⟨it0, hmem2, d0, hd, hn⟩
      cases hR : it.reactDiv with
      | none => simp [parseGridItems, hR, hrest]
      | some d =>
        cases hN : d.itemName with
        | none => simp [parseGridItems, hR, hN]
        | some nm => simp [parseGridItems, hR, hN, hrest]

/-- C10: when any grid item of a 200 page has a react div without the
data-item-name attribute, the per-item failure is caught by the page-level
handler and the whole page yields zero items, well-formed items of the same
page included. -/
theorem C10_page_discard (items : List GridItem)
    (h : ∃ it ∈ items, ∃ d : ReactDiv, it.reactDiv = some d ∧ d.itemName = none) :
    fetch_page (FetchResp.ok 200 items) = [] := by
  simp [fetch_page, parseGridItems_hits_missing_name items h]

/-- Witness for C10: a page carrying one fully well-formed item and one
item without a name attribute yields zero items. -/
theorem C10_page_discard_witness :
    (∃ it ∈ [giGood, giBad], ∃ d : ReactDiv, it.reactDiv = some d ∧ d.itemName = none) ∧
    fetch_page (FetchResp.ok 200 [giGood, giBad]) = [] :=
  ⟨⟨giBad, by decide, ⟨none, none⟩, rfl, rfl⟩,
    C10_page_discard [giGood, giBad] ⟨giBad, by decide, ⟨none, none⟩, rfl, rfl⟩⟩

/-- C2: the cache key is derived from the username alone — the literal
prefix followed by the username — and `get_watchlist_movies` accepts no
genre or decade argument through which a filter could reach the key. -/
theorem C2_cache_key_username_only :
    cache_key (cs "alice") = cs "watchlist:alice" ∧
    ∀ u : List Char, cache_key u = cs "watchlist:" ++ u :=
  ⟨by decide, fun _ => rfl⟩

/-- C3: the request path built by `fetch_page` for username alice and
page 1 contains no decade and no genre segment — the function takes no
filter arguments at all. -/
theorem C3_fetch_url_no_filter_segments :
    fetchPageUrl (cs "alice") (natToDec 1) =
      cs "https://letterboxd.com/alice/watchlist/page/1/" := by
  decide

/-- C7: a `setex` write of a serialized movie list followed immediately by
a `get` of the same key returns the stored string, and json.loads of that
string yields a list equal in content and order to the one stored. -/
theorem C7_cache_roundtrip (c : CacheStore) (k : List Char) (l : List Movie) (ttl now : Nat)
    (h : 0 < ttl) :
    cacheGet (cacheSetex c k ttl now (encodeMovies l)) k now = some (encodeMovies l) ∧
    decodeMovies (encodeMovies l) = some l := by
  refine ⟨?_, decodeMovies_encodeMovies l⟩
  have hexp : now < now + ttl := by omega
  simp [cacheSetex, cacheGet, hexp]

/-- Witness for C7 at the TTL the application uses. -/
theorem C7_cache_roundtrip_witness :
    0 < CACHE_EXPIRATION ∧
    (cacheGet (cacheSetex [] (cs "watchlist:alice") CACHE_EXPIRATION 0
        (encodeMovies [mvInception])) (cs "watchlist:alice") 0 = some (encodeMovies [mvInception]) ∧
      decodeMovies (encodeMovies [mvInception]) = some [mvInception]) :=
  ⟨by decide, C7_cache_roundtrip [] (cs "watchlist:alice") [mvInception] CACHE_EXPIRATION 0
    (by decide)⟩

/-- C8: on a populated list of at least five movies, the endpoint succeeds
with selected_count 5; the five returned records are the enrichment of the
source records at the five pairwise distinct positions random.sample chose,
each with its poster field set to exactly the TMDB lookup result — possibly
absent, never an error. -/
theorem C8_selection (username : List Char) (genre decade : Option (List Char))
    (ms : List Movie) (pick : List Nat)
    (enrich : List Char → Option Nat → Option (List Char))
    (h5 : 5 ≤ ms.length)
    (hlen : pick.length = min 5 ms.length)
    (hnd : pick.Nodup)
    (hbnd : ∀ i ∈ pick, i < ms.length) :
    get_watchlist username genre decade (some ms) pick enrich =
      ApiResult.success username ms.length 5
        (pick.map fun i => enrichRec enrich (ms.getD i ⟨[], none, none, none⟩)) ∧
    (pick.map fun i => enrichRec enrich (ms.getD i ⟨[], none, none, none⟩)).length = 5 ∧
    (∀ m ∈ pick.map (fun i => enrichRec enrich (ms.getD i ⟨[], none, none, none⟩)),
      m.poster = enrich m.title m.year ∧
      ∃ i, i < ms.length ∧ m = enrichRec enrich (ms.getD i ⟨[], none, none, none⟩)) ∧
    (∃ idx : List Nat, idx.Nodup ∧ idx.length = 5 ∧ (∀ i ∈ idx, i < ms.length) ∧
      pick.map (fun i => enrichRec enrich (ms.getD i ⟨[], none, none, none⟩)) =
        idx.map fun i => enrichRec enrich (ms.getD i ⟨[], none, none, none⟩)) := by
  have hlen5 : pick.length = 5 := by
    rw [hlen, Nat.min_eq_left h5]
  refine ⟨?_, ?_, ?_, ⟨pick, hnd, hlen5, hbnd, rfl⟩⟩
  · simp only [get_watchlist]
    rw [if_neg (by omega), if_neg (by omega)]
    rw [List.length_map, hlen5]
  · rw [List.length_map, hlen5]
  · intro m hm
    obtain ⟨i, hi, rfl⟩ := List.mem_map.mp hm
    exact ⟨by simp [enrichRec], i, hbnd i hi, rfl⟩

/-- Witness for C8, with a TMDB client that fails on every lookup: the
request still succeeds and every poster is simply absent. -/
theorem C8_selection_witness :
    (5 ≤ msFive.length ∧ pickFive.length = min 5 msFive.length ∧ pickFive.Nodup ∧
      ∀ i ∈ pickFive, i < msFive.length) ∧
    (get_watchlist (cs "alice") none none (some msFive) pickFive (fun _ _ => none) =
      ApiResult.success (cs "alice") msFive.length 5
        (pickFive.map fun i => enrichRec (fun _ _ => none) (msFive.getD i ⟨[], none, none, none⟩)) ∧
    (pickFive.map fun i => enrichRec (fun _ _ => none) (msFive.getD i ⟨[], none, none, none⟩)).length = 5 ∧
    (∀ m ∈ pickFive.map (fun i => enrichRec (fun _ _ => none) (msFive.getD i ⟨[], none, none, none⟩)),
      m.poster = (fun _ _ => (none : Option (List Char))) m.title m.year ∧
      ∃ i, i < msFive.length ∧ m = enrichRec (fun _ _ => none) (msFive.getD i ⟨[], none, none, none⟩)) ∧
    (∃ idx : List Nat, idx.Nodup ∧ idx.length = 5 ∧ (∀ i ∈ idx, i < msFive.length) ∧
      pickFive.map (fun i => enrichRec (fun _ _ => none) (msFive.getD i ⟨[], none, none, none⟩)) =
        idx.map fun i => enrichRec (fun _ _ => none) (msFive.getD i ⟨[], none, none, none⟩))) :=
  ⟨⟨by decide, by decide, by decide, by decide⟩,
    C8_selection (cs "alice") none none msFive pickFive (fun _ _ => none)
      (by decide) (by decide) (by decide) (by decide)⟩

theorem cacheGet_mem (c : CacheStore) (k : List Char) (now : Nat) (v : List Char)
    (h : cacheGet c k now = some v) : ∃ e ∈ c, e.2.1 = v := by
  induction c with
  | nil => exact Option.noConfusion h
  | cons e rest ih =>
    by_cases hk : e.1 = k
    · by_cases ht : now < e.2.2
      · simp only [cacheGet, if_pos hk, if_pos ht] at h
        injection h with h2
        exact ⟨e, List.mem_cons_self e rest, h2⟩
      · simp only [cacheGet, if_pos hk, if_neg ht] at h
        exact Option.noConfusion h
    · simp only [cacheGet, if_neg hk] at h
      obtain ⟨e2, hmem, hv⟩ := ih h
      exact ⟨e2, List.mem_cons_of_mem e hmem, hv⟩

/-- C9: `get_watchlist_movies` writes to the cache only json.dumps of a
non-empty scrape result — never a `None` outcome and never an empty list —
so the cache invariant is preserved by every call, and under it every cache
hit returns a list with at least one movie. -/
theorem C9_cache_nonempty (c : CacheStore) (fetch : Nat → List Movie) (u : List Char)
    (now : Nat) (hinv : CacheInv c) :
    CacheInv (get_watchlist_movies c fetch u now).2 ∧
    (∀ data, cacheGet c (cache_key u) now = some data →
      ∃ l : List Movie, l ≠ [] ∧
        (get_watchlist_movies c fetch u now).1 = Except.ok (some l)) := by
  constructor
  · cases hget : cacheGet c (cache_key u) now with
    | some data =>
      have hsame : (get_watchlist_movies c fetch u now).2 = c := by
        simp only [get_watchlist_movies, hget]
        cases decodeMovies data <;> rfl
      rw [hsame]
      exact hinv
    | none =>
      cases hscrape : scrape_watchlist_async fetch with
      | none =>
        simp only [get_watchlist_movies, hget, hscrape]
        exact hinv
      | some movies =>
        simp only [get_watchlist_movies, hget, hscrape, cacheSetex]
        intro e hmem
        rcases List.mem_cons.mp hmem with heq | hmem2
        · exact ⟨movies, scrape_some_ne_nil fetch movies hscrape, by rw [heq]⟩
        · exact hinv e hmem2
  · intro data hdata
    obtain ⟨e, hmem, hval⟩ := cacheGet_mem c (cache_key u) now data hdata
    obtain ⟨l, hl, henc⟩ := hinv e hmem
    have hdataenc : data = encodeMovies l := by rw [← hval, henc]
    have hdec : decodeMovies data = some l := by
      rw [hdataenc, decodeMovies_encodeMovies]
    refine ⟨l, hl, ?_⟩
    simp only [get_watchlist_movies, hdata, hdec]

theorem invCache_holds : CacheInv invCache := by
  intro e he
  rw [show invCache = [(cache_key (cs "alice"), encodeMovies [mvInception], 5)] from rfl,
    List.mem_singleton] at he
  subst he
  exact ⟨[mvInception], by decide, rfl⟩

/-- Witness for C9: with a valid cached entry present, the call is a hit
and returns a non-empty list. -/
theorem C9_cache_nonempty_witness :
    CacheInv invCache ∧
    (∃ l : List Movie, l ≠ [] ∧
      (get_watchlist_movies invCache (fun _ => []) (cs "alice") 0).1 = Except.ok (some l)) :=
  ⟨invCache_holds,
    (C9_cache_nonempty invCache (fun _ => []) (cs "alice") 0 invCache_holds).2
      (encodeMovies [mvInception]) (by decide)⟩
